import Mathlib

/-!
Shallow embedding of the account pool orchestrator of `src/core/account.py`
(classes `AccountConfig`, `AccountManager`, `MultiAccountManager` and the
module-level reload helpers).  Timestamps (Python `time.time()` floats) are
modelled as integers (epoch seconds), HTTP status codes as naturals, Python dicts as
association lists that preserve insertion order (as CPython dicts do).
Methods that mutate `self` are modelled as functions returning the updated
record alongside their result.
-/

namespace NexusAPI

/-- Mirror of `QUOTA_TYPES` (the keys of the dict at the top of the module). -/
def QUOTA_TYPES : List String := ["text", "images", "videos"]

/-- Result of parsing with format `"%Y-%m-%d %H:%M:%S"`. -/
structure DateTimeYmd where
  year : Nat
  month : Nat
  day : Nat
  hour : Nat
  minute : Nat
  second : Nat
deriving DecidableEq, Repr

/-- Parse exactly `n` decimal digits (as `%Y` does in CPython's strptime). -/
def parseExactDigits : Nat → List Char → Nat → Option (Nat × List Char)
  | 0, cs, acc => some (acc, cs)
  | Nat.succ k, c :: cs, acc =>
      if c.isDigit then parseExactDigits k cs (acc * 10 + (c.toNat - 48)) else none
  | Nat.succ _, [], _ => none

/-- Parse one or two decimal digits (as `%m`/`%d`/`%H`/`%M`/`%S` accept). -/
def parseUpTo2 : List Char → Option (Nat × List Char)
  | [] => none
  | c1 :: rest =>
      if c1.isDigit then
        match rest with
        | c2 :: rest2 =>
            if c2.isDigit then some ((c1.toNat - 48) * 10 + (c2.toNat - 48), rest2)
            else some (c1.toNat - 48, rest)
        | [] => some (c1.toNat - 48, [])
      else none

/-- Require a literal character. -/
def expectChar (c : Char) : List Char → Option (List Char)
  | c1 :: rest => if c1 = c then some rest else none
  | [] => none

/-- The characters CPython's `re` matches with `\s` in Unicode mode
(`Py_UNICODE_ISSPACE`): ASCII whitespace, the separator controls
U+001C-U+001F, and the Unicode space characters. -/
def isPyWhitespace (c : Char) : Bool :=
  (0x09 ≤ c.toNat && c.toNat ≤ 0x0D) || c.toNat = 0x20 ||
    (0x1C ≤ c.toNat && c.toNat ≤ 0x1F) || c.toNat = 0x85 || c.toNat = 0xA0 ||
    c.toNat = 0x1680 || (0x2000 ≤ c.toNat && c.toNat ≤ 0x200A) ||
    c.toNat = 0x2028 || c.toNat = 0x2029 || c.toNat = 0x202F ||
    c.toNat = 0x205F || c.toNat = 0x3000

/-- Match `\s+`: CPython's strptime rewrites whitespace in the format to
`\s+`, so the format's space accepts a run of one or more whitespace
characters.  Consuming the maximal run is equivalent to the regex here,
since the directive that follows only matches digits. -/
def expectWhitespaceRun : List Char → Option (List Char)
  | c :: rest =>
      if isPyWhitespace c then some (rest.dropWhile isPyWhitespace) else none
  | [] => none

/-- Gregorian leap-year test, as in Python's `calendar`/`datetime`. -/
def isLeapYear (y : Nat) : Bool :=
  (y % 4 = 0 && y % 100 ≠ 0) || y % 400 = 0

/-- Number of days in a month of a given year. -/
def daysInMonth (y m : Nat) : Nat :=
  if m = 2 then (if isLeapYear y then 29 else 28)
  else if m = 4 ∨ m = 6 ∨ m = 9 ∨ m = 11 then 30
  else 31

/-- Model of `datetime.strptime(s, "%Y-%m-%d %H:%M:%S")`: four-digit year,
one-or-two-digit remaining fields, literal `-`/`:` separators, the format's
space matching a run of whitespace (`\s+`, as CPython rewrites format
whitespace), no trailing input, and the range checks `datetime` itself
performs (month 1-12, valid day of month, hour 0-23, minute/second 0-59 —
a leap-second 60/61 from `%S` still fails the `datetime` constructor —
year at least `MINYEAR = 1`).  Returns `none` exactly when CPython raises
`ValueError`. -/
def strptime_YmdHMS (s : String) : Option DateTimeYmd := do
  let (y, cs) ← parseExactDigits 4 s.toList 0
  let cs ← expectChar '-' cs
  let (mo, cs) ← parseUpTo2 cs
  let cs ← expectChar '-' cs
  let (d, cs) ← parseUpTo2 cs
  let cs ← expectWhitespaceRun cs
  let (h, cs) ← parseUpTo2 cs
  let cs ← expectChar ':' cs
  let (mi, cs) ← parseUpTo2 cs
  let cs ← expectChar ':' cs
  let (sec, cs) ← parseUpTo2 cs
  if cs = [] ∧ 1 ≤ y ∧ 1 ≤ mo ∧ mo ≤ 12 ∧ 1 ≤ d ∧ d ≤ daysInMonth y mo ∧
      h ≤ 23 ∧ mi ≤ 59 ∧ sec ≤ 59 then
    some ⟨y, mo, d, h, mi, sec⟩
  else
    none

/-- Days from year 1 up to January 1 of year `y` (proleptic Gregorian),
as in `datetime.date.toordinal`. -/
def daysBeforeYearOrd (y : Nat) : Nat :=
  365 * (y - 1) + (y - 1) / 4 - (y - 1) / 100 + (y - 1) / 400

/-- Days from January 1 to the first day of month `m` in year `y`. -/
def daysBeforeMonth (y m : Nat) : Nat :=
  (List.range (m - 1)).foldl (fun a i => a + daysInMonth y (i + 1)) 0

/-- `datetime.date.toordinal` for the parsed timestamp. -/
def toOrdinal (dt : DateTimeYmd) : Nat :=
  daysBeforeYearOrd dt.year + daysBeforeMonth dt.year dt.month + dt.day

/-- Epoch seconds of a wall-clock timestamp interpreted in UTC+8 (the code
attaches `timezone(timedelta(hours=8))` to the parsed expiry).  The ordinal
of 1970-01-01 is 719163. -/
def dtToEpochSecondsUTC8 (dt : DateTimeYmd) : Int :=
  ((toOrdinal dt : Int) - 719163) * 86400 +
    ((dt.hour * 3600 + dt.minute * 60 + dt.second : Nat) : Int) - 8 * 3600

/-- Mirror of the `AccountConfig` dataclass.  Credential fields are opaque
strings; only `expires_at` and `disabled` carry behaviour. -/
structure AccountConfig where
  account_id : String
  secure_c_ses : String
  host_c_oses : Option String
  csesidx : String
  config_id : String
  expires_at : Option String := none
  disabled : Bool := false
  mail_provider : Option String := none
  mail_address : Option String := none
  mail_password : Option String := none
  mail_client_id : Option String := none
  mail_refresh_token : Option String := none
  mail_tenant : Option String := none
deriving DecidableEq, Repr

/-- Mirror of `AccountConfig.get_remaining_hours`.  `now` is the current
epoch time in seconds (the code takes `datetime.now` in the same UTC+8 zone,
so the subtraction is zone-consistent).  Any parse failure is swallowed by
the `except` clause and yields `none`. -/
def get_remaining_hours (cfg : AccountConfig) (now : ℤ) : Option ℚ :=
  match cfg.expires_at with
  | none => none
  | some s =>
      match strptime_YmdHMS s with
      | none => none
      | some dt => some (((dtToEpochSecondsUTC8 dt - now : ℤ) : ℚ) / 3600)

/-- Mirror of `AccountConfig.is_expired`. -/
def is_expired (cfg : AccountConfig) (now : ℤ) : Bool :=
  match get_remaining_hours cfg now with
  | none => false
  | some r => decide (r ≤ 0)

/-- Mirror of `AccountManager`: the per-account mutable health state
together with the immutable config and the two tunables fixed at
construction time. -/
structure AccountManager where
  config : AccountConfig
  account_failure_threshold : Nat
  rate_limit_cooldown_seconds : ℤ
  is_available : Bool := true
  last_error_time : ℤ := 0
  last_cooldown_time : ℤ := 0
  quota_cooldowns : List (String × ℤ) := []
  error_count : Nat := 0
  conversation_count : Nat := 0
  session_usage_count : Nat := 0
deriving DecidableEq, Repr

/-- Python dict assignment `d[k] = v`: replace in place if the key exists
(keeping its position), append otherwise. -/
def assocUpsert (l : List (String × ℤ)) (k : String) (v : ℤ) : List (String × ℤ) :=
  if l.any (fun p => p.1 = k) then
    l.map (fun p => if p.1 = k then (k, v) else p)
  else
    l ++ [(k, v)]

/-- Mirror of `AccountManager.handle_non_http_error`: bump the error
timestamp and counter; disable the account once the counter reaches the
failure threshold. -/
def handle_non_http_error (m : AccountManager) (now : ℤ) : AccountManager :=
  let ec := m.error_count + 1
  { m with
    last_error_time := now
    error_count := ec
    is_available := if m.account_failure_threshold ≤ ec then false else m.is_available }

/-- Mirror of `AccountManager.handle_http_error`.  `quota_type` is the
optional capability tag; the guard `quota_type and quota_type in QUOTA_TYPES`
is the nonempty-string truthiness test followed by the membership test. -/
def handle_http_error (m : AccountManager) (status_code : Nat)
    (quota_type : Option String) (now : ℤ) : AccountManager :=
  if status_code = 400 then
    m
  else if status_code = 429 then
    match quota_type with
    | some q =>
        if q ≠ "" ∧ q ∈ QUOTA_TYPES then
          { m with quota_cooldowns := assocUpsert m.quota_cooldowns q now }
        else
          { m with last_cooldown_time := now, is_available := false }
    | none => { m with last_cooldown_time := now, is_available := false }
  else if status_code = 401 ∨ status_code = 403 then
    { m with last_cooldown_time := now, is_available := false }
  else
    handle_non_http_error m now

/-- Mirror of `AccountManager.should_retry`.  Returns the boolean result
together with the (possibly mutated) account: recovery from an elapsed
global cooldown happens inside this very check. -/
def should_retry (m : AccountManager) (now : ℤ) : Bool × AccountManager :=
  if m.is_available then
    (true, m)
  else if 0 < m.last_cooldown_time then
    if m.rate_limit_cooldown_seconds < now - m.last_cooldown_time then
      (true, { m with is_available := true, last_cooldown_time := 0 })
    else
      (false, m)
  else
    (false, m)

/-- Mirror of `AccountManager.get_cooldown_info`.  The method only reads
`self`, so the state component of the result is the unchanged record;
`int()` truncates the positive remaining time, the identity on these
integer timestamps. -/
def get_cooldown_info (m : AccountManager) (now : ℤ) :
    (Int × Option String) × AccountManager :=
  if 0 < m.last_cooldown_time ∧
      0 < m.rate_limit_cooldown_seconds - (now - m.last_cooldown_time) then
    ((m.rate_limit_cooldown_seconds - (now - m.last_cooldown_time), some "限流冷却"), m)
  else if m.is_available then
    ((0, none), m)
  else
    ((-1, some "错误禁用"), m)

/-- An entry of `MultiAccountManager.global_session_cache`:
`{"account_id": ..., "session_id": ..., "updated_at": ...}`. -/
structure CacheEntry where
  account_id : String
  session_id : String
  updated_at : ℤ
deriving DecidableEq, Repr

/-- Comparison key of `_ensure_cache_size`'s `sorted(..., key=lambda x: x[1]["updated_at"])`. -/
def entryLE (a b : String × CacheEntry) : Prop :=
  a.2.updated_at ≤ b.2.updated_at

instance : DecidableRel entryLE :=
  fun a b => inferInstanceAs (Decidable (a.2.updated_at ≤ b.2.updated_at))

instance : IsTotal (String × CacheEntry) entryLE :=
  ⟨fun a b => le_total a.2.updated_at b.2.updated_at⟩

instance : IsTrans (String × CacheEntry) entryLE :=
  ⟨fun _ _ _ => le_trans⟩

/-- Python dict assignment on the session cache. -/
def cacheUpsert (l : List (String × CacheEntry)) (k : String) (v : CacheEntry) :
    List (String × CacheEntry) :=
  if l.any (fun p => p.1 = k) then
    l.map (fun p => if p.1 = k then (k, v) else p)
  else
    l ++ [(k, v)]

/-- Mirror of `MultiAccountManager._ensure_cache_size`.  When the cache is
strictly larger than `cache_max_size`, sort by `updated_at` ascending and
delete the first `len - int(cache_max_size * 0.8)` keys.  The source fixes
`cache_max_size = 1000`, for which `int(1000 * 0.8) = 800 = 8 * 1000 / 10`. -/
def ensure_cache_size (cache : List (String × CacheEntry)) (cache_max_size : Nat) :
    List (String × CacheEntry) :=
  if cache_max_size < cache.length then
    let sorted := List.insertionSort entryLE cache
    let removeCount := cache.length - 8 * cache_max_size / 10
    let evicted := (sorted.take removeCount).map Prod.fst
    cache.filter (fun e => decide (e.1 ∉ evicted))
  else
    cache

/-- Mirror of `MultiAccountManager.set_session_cache`: upsert the entry with
`updated_at = now`, then enforce the size bound. -/
def set_session_cache (cache : List (String × CacheEntry)) (cache_max_size : Nat)
    (conv_key account_id session_id : String) (now : ℤ) : List (String × CacheEntry) :=
  ensure_cache_size (cacheUpsert cache conv_key ⟨account_id, session_id, now⟩) cache_max_size

/-- The pruning pass inside `MultiAccountManager.acquire_session_lock`:
collect the lock keys with no entry in the session cache and delete the
first half (floor) of them. -/
def prune_session_locks (locks cacheKeys : List String) : List String :=
  let keys_to_remove := locks.filter (fun k => decide (k ∉ cacheKeys))
  let removed := keys_to_remove.take (keys_to_remove.length / 2)
  locks.filter (fun k => decide (k ∉ removed))

/-- Mirror of `MultiAccountManager.acquire_session_lock`, tracking the key
set of `_session_locks`: prune when strictly over `_session_locks_max_size`,
then create the requested key's lock lazily if absent. -/
def acquire_session_lock (locks cacheKeys : List String)
    (session_locks_max_size : Nat) (key : String) : List String :=
  let locks1 :=
    if session_locks_max_size < locks.length then prune_session_locks locks cacheKeys
    else locks
  if key ∈ locks1 then locks1 else locks1 ++ [key]

/-- The rotation critical section of `MultiAccountManager.get_account`
(lines 497-502): reseed the request counter when the number of available
accounts differs from the recorded one, then select `counter % K` and
post-increment.  Returns `(index, counter, last_account_count)`. -/
def rotation_select (counter last_account_count K seed : Nat) : Nat × Nat × Nat :=
  let c := if K ≠ last_account_count then seed else counter
  (c % K, c + 1, K)

/-- Iterate `rotation_select` once per seed, with the available-account
count held fixed at `K`, collecting the selected indices. -/
def rotation_run (counter last_account_count K : Nat) : List Nat → List Nat
  | [] => []
  | seed :: rest =>
      let r := rotation_select counter last_account_count K seed
      r.1 :: rotation_run r.2.1 r.2.2 K rest

/-- First-match association lookup (CPython dicts cannot hold duplicate
keys, so on a duplicate-free list this is dict lookup). -/
def lookupAcc : List (String × AccountManager) → String → Option AccountManager
  | [], _ => none
  | (k, v) :: rest, key => if k = key then some v else lookupAcc rest key

/-- Outcome of the pinned branch of `MultiAccountManager.get_account`. -/
inductive PinnedResult where
  | notFound
  | unavailable
  | ok (m : AccountManager)
deriving DecidableEq, Repr

/-- Mirror of the pinned branch of `MultiAccountManager.get_account`
(lines 477-483): unknown id raises 404; a known account is put through
`should_retry` (whose recovery mutation persists in the pool) and raises
503 when that check fails; otherwise it is returned.  The branch consults
neither `config.is_expired()` nor `config.disabled`. -/
def get_account_pinned (accounts : List (String × AccountManager))
    (account_id : String) (now : ℤ) : PinnedResult × List (String × AccountManager) :=
  match lookupAcc accounts account_id with
  | none => (.notFound, accounts)
  | some acc =>
      let r := should_retry acc now
      let accounts2 := accounts.map (fun p => if p.1 = account_id then (p.1, r.2) else p)
      if r.1 then (.ok r.2, accounts2) else (.unavailable, accounts2)

/-- The availability filter of the unpinned branch of
`MultiAccountManager.get_account` (lines 486-491).  The comprehension calls
`should_retry` (with its side effect) on every account, then keeps those
that passed and are neither expired nor manually disabled. -/
def available_accounts (accounts : List (String × AccountManager)) (now : ℤ) :
    List AccountManager :=
  ((accounts.map (fun p => should_retry p.2 now)).filter
    (fun r => r.1 && !is_expired r.2.config now && !r.2.config.disabled)).map Prod.snd

/-- Mirror of `AccountManager.__init__` as performed by
`MultiAccountManager.add_account` (which also loads `conversation_count`
from the persisted stats). -/
def mkAccountManager (cfg : AccountConfig) (account_failure_threshold : Nat)
    (rate_limit_cooldown_seconds : ℤ) (stats : List (String × Nat)) : AccountManager :=
  { config := cfg
    account_failure_threshold := account_failure_threshold
    rate_limit_cooldown_seconds := rate_limit_cooldown_seconds
    conversation_count := ((stats.lookup cfg.account_id).getD 0) }

/-- Mirror of the per-account effect of `load_multi_account_config`
(lines 615-645): each descriptor yields a fresh manager, and an already
expired account is loaded with `is_available = False`. -/
def load_multi_account_config (data : List AccountConfig)
    (account_failure_threshold : Nat) (rate_limit_cooldown_seconds : ℤ)
    (stats : List (String × Nat)) (now : ℤ) : List (String × AccountManager) :=
  data.map (fun cfg =>
    let m := mkAccountManager cfg account_failure_threshold rate_limit_cooldown_seconds stats
    (cfg.account_id, if is_expired cfg now then { m with is_available := false } else m))

/-- The explicit reset applied by `reload_accounts` (lines 683-693) to every
account that survives the reload: restore the remembered conversation count
and clear all error state. -/
def reload_reset_state (m : AccountManager) (cc : Nat) : AccountManager :=
  { m with
    conversation_count := cc
    is_available := true
    last_error_time := 0
    last_cooldown_time := 0
    error_count := 0
    session_usage_count := 0 }

/-- Mirror of `reload_accounts`, with the storage read abstracted as the
`data` argument (the configuration source is outside the orchestrator): the
pool is rebuilt by `load_multi_account_config`, and every account whose id
already existed gets its statistics restored and its error state reset. -/
def reload_accounts (oldAccounts : List (String × AccountManager))
    (data : List AccountConfig) (account_failure_threshold : Nat)
    (rate_limit_cooldown_seconds : ℤ) (stats : List (String × Nat)) (now : ℤ) :
    List (String × AccountManager) :=
  (load_multi_account_config data account_failure_threshold
      rate_limit_cooldown_seconds stats now).map (fun p =>
    match lookupAcc oldAccounts p.1 with
    | some oldM => (p.1, reload_reset_state p.2 oldM.conversation_count)
    | none => p)

/-- Fold of `handle_non_http_error` over a list of failure times: a run of
consecutive generic (unstructured) failures. -/
def apply_generic_failures (m : AccountManager) (times : List ℤ) : AccountManager :=
  times.foldl handle_non_http_error m

/-- A sample account descriptor used to evaluate the theorems on concrete
states. -/
def sampleConfig : AccountConfig :=
  { account_id := "a1", secure_c_ses := "ses", host_c_oses := none,
    csesidx := "idx", config_id := "cfg" }

/-- A freshly constructed manager for `sampleConfig` with
`account_failure_threshold = 3` and `rate_limit_cooldown_seconds = 60`. -/
def sampleManager : AccountManager :=
  { config := sampleConfig, account_failure_threshold := 3,
    rate_limit_cooldown_seconds := 60 }

/-- `sampleManager` after a 429 without capability tag reported at time 100:
globally cooling down with `last_cooldown_time = 100`. -/
def lapsedCooldownManager : AccountManager :=
  handle_http_error sampleManager 429 none 100

/-- `sampleManager` with the manual-disable flag set and otherwise healthy
state. -/
def disabledManager : AccountManager :=
  { sampleManager with config := { sampleConfig with disabled := true } }

/-- C1: the error classifier follows the policy table: 400 leaves the state
unchanged; 429 with a capability tag (a member of the capability set) only
stamps that capability's cooldown; 429 without a tag and 401/403 stamp the
global cooldown and clear availability; every other status and every
unstructured failure increment the consecutive-error counter and clear
availability exactly when the counter reaches the failure threshold. -/
theorem c1_error_classifier_policy (m : AccountManager) (status : Nat)
    (qt : Option String) (now : ℤ) :
    (status = 400 → handle_http_error m status qt now = m) ∧
    (status = 429 → ∀ q, qt = some q → q ∈ QUOTA_TYPES →
      handle_http_error m status qt now =
        { m with quota_cooldowns := assocUpsert m.quota_cooldowns q now }) ∧
    (status = 429 → qt = none →
      handle_http_error m status qt now =
        { m with last_cooldown_time := now, is_available := false }) ∧
    (status = 401 ∨ status = 403 →
      handle_http_error m status qt now =
        { m with last_cooldown_time := now, is_available := false }) ∧
    (status ≠ 400 → status ≠ 429 → status ≠ 401 → status ≠ 403 →
      handle_http_error m status qt now =
        { m with
          last_error_time := now
          error_count := m.error_count + 1
          is_available :=
            if m.account_failure_threshold ≤ m.error_count + 1 then false
            else m.is_available }) ∧
    (handle_non_http_error m now =
      { m with
        last_error_time := now
        error_count := m.error_count + 1
        is_available :=
          if m.account_failure_threshold ≤ m.error_count + 1 then false
          else m.is_available }) := by
  refine ⟨?_, ?_, ?_, ?_, ?_, ?_⟩
  · intro h; subst h; simp [handle_http_error]
  · intro h q hq hmem; subst h; subst hq
    have hne : q ≠ "" := by
      revert hmem; simp [QUOTA_TYPES]
      rintro (rfl | rfl | rfl) <;> decide
    simp [handle_http_error, hne, hmem]
  · intro h hq; subst h; subst hq; simp [handle_http_error]
  · rintro (h | h) <;> subst h <;> simp [handle_http_error]
  · intro h400 h429 h401 h403
    simp [handle_http_error, h400, h429, h401, h403, handle_non_http_error]
  · simp [handle_non_http_error]

/-- Witness for C1: a 429 with capability tag `"text"` at time 7 on the
sample manager only stamps that capability's cooldown. -/
theorem c1_error_classifier_policy_witness :
    ((429 : Nat) = 429 ∧ "text" ∈ QUOTA_TYPES) ∧
    handle_http_error sampleManager 429 (some "text") 7 =
      { sampleManager with
        quota_cooldowns := assocUpsert sampleManager.quota_cooldowns "text" 7 } :=
  ⟨⟨rfl, by decide⟩,
   (c1_error_classifier_policy sampleManager 429 (some "text") 7).2.1 rfl "text" rfl
     (by decide)⟩

/-- C10: `should_retry` is the recovery operation: on an unavailable account
whose global cooldown has elapsed it restores availability, zeroes the
cooldown timestamp and answers true; in every other case (available, still
cooling, or cooldown-free and hence permanently unavailable) it answers
without changing any field. -/
theorem c10_should_retry_recovery_frame (m : AccountManager) (now : ℤ) :
    (m.is_available = true → should_retry m now = (true, m)) ∧
    (m.is_available = false → 0 < m.last_cooldown_time →
      m.rate_limit_cooldown_seconds < now - m.last_cooldown_time →
      should_retry m now =
        (true, { m with is_available := true, last_cooldown_time := 0 })) ∧
    (m.is_available = false → 0 < m.last_cooldown_time →
      ¬ m.rate_limit_cooldown_seconds < now - m.last_cooldown_time →
      should_retry m now = (false, m)) ∧
    (m.is_available = false → ¬ 0 < m.last_cooldown_time →
      should_retry m now = (false, m)) := by
  refine ⟨?_, ?_, ?_, ?_⟩
  · intro h; simp [should_retry, h]
  · intro h hcd helapsed; simp [should_retry, h, hcd, helapsed]
  · intro h hcd helapsed; simp [should_retry, h, hcd, helapsed]
  · intro h hcd; simp [should_retry, h, hcd]

/-- Witness for C10: the sample manager cooling down since time 100 with
duration 60 recovers when checked at time 161. -/
theorem c10_should_retry_recovery_frame_witness :
    (lapsedCooldownManager.is_available = false ∧
      0 < lapsedCooldownManager.last_cooldown_time ∧
      lapsedCooldownManager.rate_limit_cooldown_seconds <
        161 - lapsedCooldownManager.last_cooldown_time) ∧
    should_retry lapsedCooldownManager 161 =
      (true, { lapsedCooldownManager with is_available := true, last_cooldown_time := 0 }) :=
  ⟨⟨by decide, by decide, by decide⟩,
   (c10_should_retry_recovery_frame lapsedCooldownManager 161).2.1 (by decide)
     (by decide) (by decide)⟩

/-- C3 counterexample: the sample account enters global cooldown at
`T = 100` with duration `D = 60`, yet at exactly `t = T + D = 160` the
account is still not usable — the code requires the elapsed time to be
strictly greater than the duration, so the boundary is exclusive, contrary
to the claimed inclusive boundary. -/
theorem c3_cooldown_boundary_counterexample :
    lapsedCooldownManager.last_cooldown_time = 100 ∧
    lapsedCooldownManager.rate_limit_cooldown_seconds = 60 ∧
    (should_retry lapsedCooldownManager (100 + 60)).1 = false := by
  decide

/-- C3 amended: an account entering global cooldown at time `T > 0` (via a
tagless 429, a 401 or a 403) with duration `D`, all else equal, is not
usable at every time in the closed interval `[T, T + D]` and is usable at
every time strictly after `T + D`. -/
theorem c3_global_cooldown_window (m : AccountManager) (status : Nat)
    (qt : Option String) (T : ℤ) (hT : 0 < T)
    (hcase : (status = 429 ∧ qt = none) ∨ status = 401 ∨ status = 403) :
    (∀ t, T ≤ t → t ≤ T + m.rate_limit_cooldown_seconds →
      (should_retry (handle_http_error m status qt T) t).1 = false) ∧
    (∀ t, T + m.rate_limit_cooldown_seconds < t →
      (should_retry (handle_http_error m status qt T) t).1 = true) := by
  have hst : handle_http_error m status qt T =
      { m with last_cooldown_time := T, is_available := false } := by
    rcases hcase with ⟨h, hq⟩ | h | h <;> subst h
    · subst hq; simp [handle_http_error]
    · simp [handle_http_error]
    · simp [handle_http_error]
  rw [hst]
  constructor
  · intro t h1 h2
    have hlt : ¬ m.rate_limit_cooldown_seconds < t - T := by omega
    simp [should_retry, hT, hlt]
  · intro t h1
    have hlt : m.rate_limit_cooldown_seconds < t - T := by omega
    simp [should_retry, hT, hlt]

/-- Witness for C3 amended: the concrete cooldown entered at `T = 100` with
`D = 60` keeps the sample account unusable at `t = 130` and usable at
`t = 161`. -/
theorem c3_global_cooldown_window_witness :
    ((0 : ℤ) < 100 ∧ ((429 : Nat) = 429 ∧ (none : Option String) = none)) ∧
    (should_retry (handle_http_error sampleManager 429 none 100) 130).1 = false ∧
    (should_retry (handle_http_error sampleManager 429 none 100) 161).1 = true :=
  ⟨⟨by decide, rfl, rfl⟩,
   (c3_global_cooldown_window sampleManager 429 none 100 (by decide)
       (Or.inl ⟨rfl, rfl⟩)).1 130 (by decide) (by decide),
   (c3_global_cooldown_window sampleManager 429 none 100 (by decide)
       (Or.inl ⟨rfl, rfl⟩)).2 161 (by decide)⟩

/-- C6 counterexample: `lapsedCooldownManager` has been cooling down since
time 100 with duration 60 and has never been through `should_retry`; at
time 200 the cooldown has lapsed, the account is usable (a `should_retry`
call answers true) and its error counter (0) is below the threshold (3), so
it is not permanently disabled — yet `get_cooldown_info` reports
`(-1, "disabled")` instead of `(0, none)`. -/
theorem c6_cooldown_info_counterexample :
    lapsedCooldownManager.error_count = 0 ∧
    lapsedCooldownManager.error_count < lapsedCooldownManager.account_failure_threshold ∧
    (should_retry lapsedCooldownManager 200).1 = true ∧
    (get_cooldown_info lapsedCooldownManager 200).1 = (-1, some "错误禁用") := by
  decide

/-- C6 amended: `get_cooldown_info` returns the positive remaining time with
reason "cooldown" while an in-window global cooldown is recorded; `(0, none)`
when no in-window cooldown is recorded and the availability flag is set; and
`(-1, "disabled")` when no in-window cooldown is recorded and the flag is
clear — which covers threshold-disabled accounts but also lapsed cooldowns
that no `should_retry` call has yet cleared.  It never mutates the account. -/
theorem c6_cooldown_info_cases (m : AccountManager) (now : ℤ) :
    (0 < m.last_cooldown_time →
      0 < m.rate_limit_cooldown_seconds - (now - m.last_cooldown_time) →
      (get_cooldown_info m now).1 =
        (m.rate_limit_cooldown_seconds - (now - m.last_cooldown_time), some "限流冷却")) ∧
    (¬ (0 < m.last_cooldown_time ∧
        0 < m.rate_limit_cooldown_seconds - (now - m.last_cooldown_time)) →
      m.is_available = true → (get_cooldown_info m now).1 = (0, none)) ∧
    (¬ (0 < m.last_cooldown_time ∧
        0 < m.rate_limit_cooldown_seconds - (now - m.last_cooldown_time)) →
      m.is_available = false →
      (get_cooldown_info m now).1 = (-1, some "错误禁用")) ∧
    (get_cooldown_info m now).2 = m := by
  refine ⟨?_, ?_, ?_, ?_⟩
  · intro h1 h2; simp [get_cooldown_info, h1, h2]
  · intro h havail; rw [get_cooldown_info, if_neg h]; simp [havail]
  · intro h havail; rw [get_cooldown_info, if_neg h]; simp [havail]
  · rw [get_cooldown_info]; split
    · rfl
    · split <;> rfl

/-- Witness for C6 amended: the in-window case at time 130 on the sample
cooldown account. -/
theorem c6_cooldown_info_cases_witness :
    ((0 : ℤ) < lapsedCooldownManager.last_cooldown_time ∧
      (0 : ℤ) < lapsedCooldownManager.rate_limit_cooldown_seconds -
        (130 - lapsedCooldownManager.last_cooldown_time)) ∧
    (get_cooldown_info lapsedCooldownManager 130).1 =
      (lapsedCooldownManager.rate_limit_cooldown_seconds -
        (130 - lapsedCooldownManager.last_cooldown_time), some "限流冷却") :=
  ⟨⟨by decide, by decide⟩,
   (c6_cooldown_info_cases lapsedCooldownManager 130).1 (by decide) (by decide)⟩

/-- C4 counterexample: the pool holds the manually disabled (but otherwise
healthy) account `"a1"`; a pinned selection of `"a1"` returns it instead of
failing `Unavailable`, because the pinned branch checks only
`should_retry`, not `config.disabled` (nor expiry). -/
theorem c4_pinned_disabled_counterexample :
    disabledManager.config.disabled = true ∧
    (get_account_pinned [("a1", disabledManager)] "a1" 100).1 =
      PinnedResult.ok disabledManager := by
  decide

/-- C4 amended: pinned selection fails `NotFound` (404) when the identifier
is absent, fails `Unavailable` (503) exactly when the account is present but
its `should_retry` health check answers false, and otherwise returns the
(possibly cooldown-recovered) account — even if it is manually disabled or
past its expiry, which the pinned branch does not consult. -/
theorem c4_pinned_selection (accounts : List (String × AccountManager))
    (id : String) (now : ℤ) :
    (lookupAcc accounts id = none →
      (get_account_pinned accounts id now).1 = PinnedResult.notFound) ∧
    (∀ acc, lookupAcc accounts id = some acc → (should_retry acc now).1 = false →
      (get_account_pinned accounts id now).1 = PinnedResult.unavailable) ∧
    (∀ acc, lookupAcc accounts id = some acc → (should_retry acc now).1 = true →
      (get_account_pinned accounts id now).1 =
        PinnedResult.ok (should_retry acc now).2) := by
  refine ⟨?_, ?_, ?_⟩
  · intro h; simp [get_account_pinned, h]
  · intro acc h hr; simp [get_account_pinned, h, hr]
  · intro acc h hr; simp [get_account_pinned, h, hr]

/-- Witness for C4 amended: an unknown id yields `NotFound`, and the sample
account still cooling down at time 130 yields `Unavailable`. -/
theorem c4_pinned_selection_witness :
    (lookupAcc [("a1", lapsedCooldownManager)] "zz" = none ∧
      lookupAcc [("a1", lapsedCooldownManager)] "a1" = some lapsedCooldownManager ∧
      (should_retry lapsedCooldownManager 130).1 = false) ∧
    (get_account_pinned [("a1", lapsedCooldownManager)] "zz" 130).1 =
      PinnedResult.notFound ∧
    (get_account_pinned [("a1", lapsedCooldownManager)] "a1" 130).1 =
      PinnedResult.unavailable :=
  ⟨⟨by decide, by decide, by decide⟩,
   (c4_pinned_selection [("a1", lapsedCooldownManager)] "zz" 130).1 (by decide),
   (c4_pinned_selection [("a1", lapsedCooldownManager)] "a1" 130).2.1
     lapsedCooldownManager (by decide) (by decide)⟩

/-- A run of generic failures never touches the cooldown timestamp. -/
theorem apply_generic_failures_cooldown (times : List ℤ) :
    ∀ m : AccountManager,
      (apply_generic_failures m times).last_cooldown_time = m.last_cooldown_time := by
  induction times with
  | nil => intro m; rfl
  | cons t ts ih =>
      intro m
      simpa [apply_generic_failures, handle_non_http_error] using
        ih (handle_non_http_error m t)

/-- A run of generic failures adds its length to the error counter. -/
theorem apply_generic_failures_count (times : List ℤ) :
    ∀ m : AccountManager,
      (apply_generic_failures m times).error_count = m.error_count + times.length := by
  induction times with
  | nil => intro m; rfl
  | cons t ts ih =>
      intro m
      have h : apply_generic_failures m (t :: ts) =
          apply_generic_failures (handle_non_http_error m t) ts := rfl
      rw [h, ih (handle_non_http_error m t)]
      simp [handle_non_http_error]
      omega

/-- A nonempty run of generic failures that drives the error counter to the
threshold leaves the account unavailable. -/
theorem apply_generic_failures_unavailable (times : List ℤ) :
    ∀ (t : ℤ) (m : AccountManager),
      m.account_failure_threshold ≤ m.error_count + (t :: times).length →
      (apply_generic_failures m (t :: times)).is_available = false := by
  induction times with
  | nil =>
      intro t m h
      simp at h
      simp [apply_generic_failures, handle_non_http_error]
      omega
  | cons t2 ts ih =>
      intro t m h
      have : apply_generic_failures m (t :: t2 :: ts) =
          apply_generic_failures (handle_non_http_error m t) (t2 :: ts) := rfl
      rw [this]
      apply ih
      simp [handle_non_http_error] at h ⊢
      omega

/-- C2 counterexample: the sample account (threshold 3) takes a tagless 429
at time 100, then three consecutive generic failures at 101, 102, 103; the
counter hits the threshold and the account is disabled — but the stale
cooldown timestamp left by the 429 makes `should_retry` auto-recover it at
time 200, with no reload: the "permanent" disable does not survive. -/
theorem c2_threshold_disable_counterexample :
    sampleManager.account_failure_threshold = 3 ∧
    (apply_generic_failures (handle_http_error sampleManager 429 none 100)
        [101, 102, 103]).error_count = 3 ∧
    (apply_generic_failures (handle_http_error sampleManager 429 none 100)
        [101, 102, 103]).is_available = false ∧
    (should_retry
        (apply_generic_failures (handle_http_error sampleManager 429 none 100)
          [101, 102, 103]) 200).1 = true := by
  decide

/-- C2 amended: (1) on an account with no pending global-cooldown timestamp,
a run of at least `failureThreshold ≥ 1` consecutive generic failures makes
`should_retry` answer false — with no state change — at every later time,
however much time passes; (2) `reload_accounts` resets the error state
(available, zero error counter, cleared timestamps) of every account that
survives the reload. -/
theorem c2_threshold_permanence_and_reload :
    (∀ (m : AccountManager) (times : List ℤ),
      m.last_cooldown_time ≤ 0 →
      1 ≤ m.account_failure_threshold →
      m.account_failure_threshold ≤ times.length →
      ∀ t, should_retry (apply_generic_failures m times) t =
        (false, apply_generic_failures m times)) ∧
    (∀ (oldAccounts : List (String × AccountManager)) (data : List AccountConfig)
        (thr : Nat) (D : ℤ) (stats : List (String × Nat)) (now : ℤ)
        (id : String) (m : AccountManager),
      (id, m) ∈ reload_accounts oldAccounts data thr D stats now →
      (lookupAcc oldAccounts id).isSome →
      m.is_available = true ∧ m.error_count = 0 ∧ m.last_cooldown_time = 0 ∧
        m.last_error_time = 0 ∧ m.session_usage_count = 0) := by
  constructor
  · intro m times hcd hthr hlen t
    obtain ⟨t0, ts, rfl⟩ : ∃ t0 ts, times = t0 :: ts := by
      cases times with
      | nil => simp at hlen; omega
      | cons a b => exact ⟨a, b, rfl⟩
    have hunav := apply_generic_failures_unavailable ts t0 m (by omega)
    have hcd2 : ¬ 0 < (apply_generic_failures m (t0 :: ts)).last_cooldown_time := by
      rw [apply_generic_failures_cooldown]; omega
    simp [should_retry, hunav, hcd2]
  · intro oldAccounts data thr D stats now id m hmem hsome
    rw [reload_accounts] at hmem
    obtain ⟨p, hp, hfp⟩ := List.mem_map.mp hmem
    have hid : p.1 = id := by
      rcases h : lookupAcc oldAccounts p.1 with _ | oldM <;> rw [h] at hfp <;>
        exact congrArg Prod.fst hfp
    rcases h : lookupAcc oldAccounts id with _ | oldM
    · rw [h] at hsome; simp at hsome
    · rw [hid] at hfp
      rw [h] at hfp
      have : m = reload_reset_state p.2 oldM.conversation_count :=
        (congrArg Prod.snd hfp).symm
      subst this
      simp [reload_reset_state]

/-- The sample account after real damage: unavailable, seven errors on the
counter and a stale cooldown timestamp. -/
def brokenManager : AccountManager :=
  { sampleManager with
    is_available := false
    error_count := 7
    last_cooldown_time := 42 }

/-- The manager `reload_accounts` produces for `"a1"` when the pool
`[("a1", brokenManager)]` is reloaded from the descriptor list
`[sampleConfig]`. -/
def reloadedA1 : AccountManager :=
  reload_reset_state (mkAccountManager sampleConfig 3 60 [])
    brokenManager.conversation_count

/-- Witness for C2 amended: three generic failures on a fresh account with
threshold 3 leave it unusable at time 1000, and reloading a pool that
previously held the broken `"a1"` yields `"a1"` with fully reset error
state. -/
theorem c2_threshold_permanence_and_reload_witness :
    (sampleManager.last_cooldown_time ≤ 0 ∧
      1 ≤ sampleManager.account_failure_threshold ∧
      sampleManager.account_failure_threshold = 3) ∧
    should_retry (apply_generic_failures sampleManager [1, 2, 3]) 1000 =
      (false, apply_generic_failures sampleManager [1, 2, 3]) ∧
    (("a1", reloadedA1) ∈
        reload_accounts [("a1", brokenManager)] [sampleConfig] 3 60 [] 0 ∧
      (lookupAcc [("a1", brokenManager)] "a1").isSome) ∧
    (reloadedA1.is_available = true ∧ reloadedA1.error_count = 0 ∧
      reloadedA1.last_cooldown_time = 0 ∧ reloadedA1.last_error_time = 0 ∧
      reloadedA1.session_usage_count = 0) :=
  ⟨⟨by decide, by decide, by decide⟩,
   c2_threshold_permanence_and_reload.1 sampleManager [1, 2, 3] (by decide)
     (by decide) (by decide) 1000,
   ⟨by decide, by decide⟩,
   c2_threshold_permanence_and_reload.2 [("a1", brokenManager)] [sampleConfig]
     3 60 [] 0 "a1" reloadedA1 (by decide) (by decide)⟩

/-- One rotation step, unfolded. -/
theorem rotation_run_cons (counter last_account_count K s : Nat) (rest : List Nat) :
    rotation_run counter last_account_count K (s :: rest) =
      ((if K ≠ last_account_count then s else counter) % K) ::
        rotation_run ((if K ≠ last_account_count then s else counter) + 1) K K rest := by
  by_cases h : K = last_account_count <;> simp [rotation_run, rotation_select, h]

/-- Shifting the starting residue out of a cons of consecutive residues. -/
theorem consecutive_residues_shift (c K n : Nat) :
    c % K :: (List.range n).map (fun j => (c + 1 + j) % K) =
      (List.range (n + 1)).map (fun j => (c + j) % K) := by
  rw [List.range_succ_eq_map, List.map_cons, List.map_map]
  exact congrArg (List.cons _) (List.map_congr_left (fun j _ => by
    simp only [Function.comp_apply]
    congr 1
    omega))

/-- With the recorded count already equal to `K`, no reseed happens and the
indices are the consecutive residues starting at the current counter. -/
theorem rotation_run_const (K : Nat) (seeds : List Nat) :
    ∀ c, rotation_run c K K seeds =
      (List.range seeds.length).map (fun j => (c + j) % K) := by
  induction seeds with
  | nil => intro c; rfl
  | cons s rest ih =>
      intro c
      have h1 : rotation_run c K K (s :: rest) =
          c % K :: rotation_run (c + 1) K K rest := by
        simp [rotation_run, rotation_select]
      rw [h1, ih (c + 1), List.length_cons]
      exact consecutive_residues_shift c K rest.length

/-- `K` consecutive residues starting anywhere enumerate `range K`. -/
theorem residues_perm_range (c K : Nat) (hK : 1 ≤ K) :
    ((List.range K).map (fun j => (c + j) % K)).Perm (List.range K) := by
  have hsub : (List.range K).map (fun j => (c + j) % K) ⊆ List.range K := by
    intro x hx
    obtain ⟨j, _, rfl⟩ := List.mem_map.mp hx
    exact List.mem_range.mpr (Nat.mod_lt _ (by omega))
  have hnodup : ((List.range K).map (fun j => (c + j) % K)).Nodup := by
    refine List.Nodup.map_on ?_ (List.nodup_range K)
    intro i hi j hj hmod
    have hij : i % K = j % K := Nat.ModEq.add_left_cancel' c hmod
    rw [Nat.mod_eq_of_lt (List.mem_range.mp hi),
      Nat.mod_eq_of_lt (List.mem_range.mp hj)] at hij
    exact hij
  exact (List.subperm_of_subset hnodup hsub).perm_of_length_le (by simp)

/-- Recover a list by indexing it over `range`. -/
theorem map_getD_range (l : List AccountManager) (d : AccountManager) :
    (List.range l.length).map (fun i => l.getD i d) = l := by
  induction l with
  | nil => rfl
  | cons a as ih =>
      simp only [List.length_cons, List.range_succ_eq_map, List.map_cons,
        List.getD_cons_zero, List.map_map]
      refine congrArg (List.cons a) ?_
      have h : ∀ j ∈ List.range as.length,
          ((fun i => (a :: as).getD i d) ∘ Nat.succ) j = as.getD j d := by
        intro j _; simp [Function.comp]
      rw [List.map_congr_left h, ih]

/-- C5: with `K ≥ 1` available accounts and an unchanged available set, `K`
consecutive unpinned selections visit each index below `K` — and hence each
available account — exactly once; each step selects index `counter % K` and
post-increments the counter, reseeding to the fresh random seed only when
the available count differs from the recorded one. -/
theorem c5_round_robin (counter last_account_count K : Nat) (seeds : List Nat)
    (avail : List AccountManager) (d : AccountManager)
    (hK : 1 ≤ K) (hseeds : seeds.length = K) (havail : avail.length = K) :
    (rotation_run counter last_account_count K seeds).Perm (List.range K) ∧
    ((rotation_run counter last_account_count K seeds).map
        (fun i => avail.getD i d)).Perm avail ∧
    (∀ seed, rotation_select counter last_account_count K seed =
      ((if K ≠ last_account_count then seed else counter) % K,
        (if K ≠ last_account_count then seed else counter) + 1, K)) := by
  obtain ⟨s, rest, rfl⟩ : ∃ s rest, seeds = s :: rest := by
    cases seeds with
    | nil => simp at hseeds; omega
    | cons a b => exact ⟨a, b, rfl⟩
  have hlen : rest.length + 1 = K := by simpa using hseeds
  have hrun : rotation_run counter last_account_count K (s :: rest) =
      (List.range K).map
        (fun j => ((if K ≠ last_account_count then s else counter) + j) % K) := by
    rw [rotation_run_cons, rotation_run_const, ← hlen]
    exact consecutive_residues_shift _ _ _
  have hperm := residues_perm_range
    (if K ≠ last_account_count then s else counter) K hK
  rw [← hrun] at hperm
  refine ⟨hperm, ?_, fun seed => rfl⟩
  have hmap := hperm.map (fun i => avail.getD i d)
  have h2 := map_getD_range avail d
  rw [havail] at h2
  rw [h2] at hmap
  exact hmap

/-- Witness for C5: starting from counter 5 with a stale recorded count, the
three seeds `[7, 8, 9]` produce three selections that visit indices
`{0, 1, 2}` — and the three accounts — exactly once. -/
theorem c5_round_robin_witness :
    ((1 : Nat) ≤ 3 ∧ ([7, 8, 9] : List Nat).length = 3 ∧
      ([sampleManager, disabledManager, brokenManager] : List AccountManager).length = 3) ∧
    (rotation_run 5 0 3 [7, 8, 9]).Perm (List.range 3) ∧
    ((rotation_run 5 0 3 [7, 8, 9]).map
        (fun i => ([sampleManager, disabledManager, brokenManager] :
          List AccountManager).getD i sampleManager)).Perm
      [sampleManager, disabledManager, brokenManager] :=
  ⟨⟨by decide, by decide, by decide⟩,
   (c5_round_robin 5 0 3 [7, 8, 9] [sampleManager, disabledManager, brokenManager]
      sampleManager (by decide) (by decide) (by decide)).1,
   (c5_round_robin 5 0 3 [7, 8, 9] [sampleManager, disabledManager, brokenManager]
      sampleManager (by decide) (by decide) (by decide)).2.1⟩

/-- On a duplicate-free list, filtering by membership in a duplicate-free
subset keeps exactly that subset's number of elements. -/
theorem length_filter_mem_of_nodup (l removed : List String)
    (hl : l.Nodup) (hrn : removed.Nodup) (hsub : removed ⊆ l) :
    (l.filter (fun k => decide (k ∈ removed))).length = removed.length := by
  have hfn : (l.filter (fun k => decide (k ∈ removed))).Nodup := hl.filter _
  have hiff : ∀ a, a ∈ l.filter (fun k => decide (k ∈ removed)) ↔ a ∈ removed := by
    intro a
    simp only [List.mem_filter, decide_eq_true_eq]
    exact ⟨fun h => h.2, fun h => ⟨hsub h, h⟩⟩
  exact ((List.perm_ext_iff_of_nodup hfn hrn).mpr hiff).length_eq

/-- On a duplicate-free registry, the pruning pass removes exactly half
(floor) of the locks whose key is absent from the cache. -/
theorem prune_session_locks_length (locks cacheKeys : List String)
    (hnodup : locks.Nodup) :
    (prune_session_locks locks cacheKeys).length =
      locks.length - (locks.filter (fun k => decide (k ∉ cacheKeys))).length / 2 := by
  simp only [prune_session_locks]
  set p := locks.filter (fun k => decide (k ∉ cacheKeys)) with hp
  set removed := p.take (p.length / 2) with hrm
  have hrsub : removed.Sublist locks :=
    (List.take_sublist _ _).trans (List.filter_sublist _)
  have hrn : removed.Nodup := hrsub.nodup hnodup
  have heq : locks.filter (fun k => decide (k ∉ removed)) =
      locks.filter (fun x => !decide (x ∈ removed)) :=
    List.filter_congr (fun x _ => by simp [decide_not])
  have hsum := (List.filter_append_perm (fun k => decide (k ∈ removed)) locks).length_eq
  rw [List.length_append] at hsum
  have hmem := length_filter_mem_of_nodup locks removed hnodup hrn hrsub.subset
  have htk : removed.length = p.length / 2 := by
    rw [hrm, List.length_take]
    exact Nat.min_eq_left (Nat.div_le_self _ _)
  rw [heq]
  omega

/-- The pruning pass never drops a lock whose key is in the cache. -/
theorem prune_session_locks_keeps_cached (locks cacheKeys : List String) :
    ∀ k ∈ locks, k ∈ cacheKeys → k ∈ prune_session_locks locks cacheKeys := by
  intro k hk hc
  simp only [prune_session_locks, List.mem_filter, decide_eq_true_eq]
  refine ⟨hk, ?_⟩
  intro hmem
  have h2 : k ∈ locks.filter (fun k => decide (k ∉ cacheKeys)) :=
    (List.take_sublist _ _).subset hmem
  simp only [List.mem_filter, decide_eq_true_eq] at h2
  exact h2.2 hc

/-- C8: `acquire_session_lock` always ends with a lock for the requested key
(created lazily when absent); when the registry is strictly over its
capacity it first runs the pruning pass, which removes exactly half (floor)
of the locks whose key has no affinity-cache entry and never removes a lock
whose key is cached. -/
theorem c8_session_lock_registry (locks cacheKeys : List String)
    (maxSize : Nat) (key : String) :
    (key ∈ acquire_session_lock locks cacheKeys maxSize key) ∧
    (maxSize < locks.length →
      acquire_session_lock locks cacheKeys maxSize key =
        (if key ∈ prune_session_locks locks cacheKeys
          then prune_session_locks locks cacheKeys
          else prune_session_locks locks cacheKeys ++ [key])) ∧
    (locks.Nodup →
      (prune_session_locks locks cacheKeys).length =
        locks.length - (locks.filter (fun k => decide (k ∉ cacheKeys))).length / 2) ∧
    (∀ k ∈ locks, k ∈ cacheKeys → k ∈ prune_session_locks locks cacheKeys) ∧
    (∀ k ∈ locks, k ∈ cacheKeys →
      k ∈ acquire_session_lock locks cacheKeys maxSize key) := by
  refine ⟨?_, ?_, ?_, ?_, ?_⟩
  · rw [acquire_session_lock]
    by_cases h : key ∈
        (if maxSize < locks.length then prune_session_locks locks cacheKeys else locks)
    · simp [h]
    · simp [h]
  · intro hover
    rw [acquire_session_lock]
    simp only [hover, if_true]
  · intro hnodup
    exact prune_session_locks_length locks cacheKeys hnodup
  · exact prune_session_locks_keeps_cached locks cacheKeys
  · intro k hk hc
    rw [acquire_session_lock]
    have hk2 : k ∈
        (if maxSize < locks.length then prune_session_locks locks cacheKeys else locks) := by
      by_cases h : maxSize < locks.length
      · simpa [h] using prune_session_locks_keeps_cached locks cacheKeys k hk hc
      · simpa [h] using hk
    by_cases h : key ∈
        (if maxSize < locks.length then prune_session_locks locks cacheKeys else locks)
    · simp only [h, if_true]; exact hk2
    · simp only [h, if_false]; exact List.mem_append_left _ hk2

/-- Witness for C8: the five-lock registry over capacity 3 with cached keys
`k2`, `k4` prunes one of the three uncached locks (`k1`), keeps the cached
ones and lazily creates `new`. -/
theorem c8_session_lock_registry_witness :
    ((3 : Nat) < (["k1", "k2", "k3", "k4", "k5"] : List String).length ∧
      (["k1", "k2", "k3", "k4", "k5"] : List String).Nodup ∧
      "k2" ∈ (["k1", "k2", "k3", "k4", "k5"] : List String) ∧
      "k2" ∈ (["k2", "k4"] : List String)) ∧
    "new" ∈ acquire_session_lock ["k1", "k2", "k3", "k4", "k5"] ["k2", "k4"] 3 "new" ∧
    (prune_session_locks ["k1", "k2", "k3", "k4", "k5"] ["k2", "k4"]).length =
      (["k1", "k2", "k3", "k4", "k5"] : List String).length -
        ((["k1", "k2", "k3", "k4", "k5"] : List String).filter
          (fun k => decide (k ∉ (["k2", "k4"] : List String)))).length / 2 ∧
    "k2" ∈ acquire_session_lock ["k1", "k2", "k3", "k4", "k5"] ["k2", "k4"] 3 "new" :=
  ⟨⟨by decide, by decide, by decide, by decide⟩,
   (c8_session_lock_registry ["k1", "k2", "k3", "k4", "k5"] ["k2", "k4"] 3 "new").1,
   (c8_session_lock_registry ["k1", "k2", "k3", "k4", "k5"] ["k2", "k4"] 3 "new").2.2.1
     (by decide),
   (c8_session_lock_registry ["k1", "k2", "k3", "k4", "k5"] ["k2", "k4"] 3 "new").2.2.2.2
     "k2" (by decide) (by decide)⟩

/-- Specification of one `_ensure_cache_size` pass on an over-full cache
with duplicate-free keys: the survivors number `int(0.8 * maxSize)`, every
evicted entry is at most as recent as every survivor, and the survivors are
exactly the suffix of the `updatedAt`-sorted cache past the eviction cut. -/
theorem ensure_cache_size_spec (c : List (String × CacheEntry)) (M : Nat)
    (hnodup : (c.map Prod.fst).Nodup) (hover : M < c.length) :
    (ensure_cache_size c M).length = 8 * M / 10 ∧
    (∀ e ∈ ensure_cache_size c M,
      ∀ r ∈ (List.insertionSort entryLE c).take (c.length - 8 * M / 10),
        r.2.updated_at ≤ e.2.updated_at) ∧
    (∀ e, e ∈ ensure_cache_size c M ↔
      e ∈ (List.insertionSort entryLE c).drop (c.length - 8 * M / 10)) := by
  have hMle : 8 * M / 10 ≤ M := by
    have h1 : 8 * M / 10 ≤ 10 * M / 10 := Nat.div_le_div_right (by omega)
    rwa [Nat.mul_div_cancel_left M (by norm_num)] at h1
  have hperm : (List.insertionSort entryLE c).Perm c := List.perm_insertionSort entryLE c
  have hsorted : List.Sorted entryLE (List.insertionSort entryLE c) :=
    List.sorted_insertionSort entryLE c
  have hcnodup : c.Nodup := List.Nodup.of_map Prod.fst hnodup
  have hsnodup : (List.insertionSort entryLE c).Nodup := hperm.nodup_iff.mpr hcnodup
  have hsmap : ((List.insertionSort entryLE c).map Prod.fst).Nodup :=
    (hperm.map Prod.fst).nodup_iff.mpr hnodup
  have hresult : ensure_cache_size c M =
      c.filter (fun e => decide (e.1 ∉
        ((List.insertionSort entryLE c).take (c.length - 8 * M / 10)).map Prod.fst)) := by
    simp only [ensure_cache_size, if_pos hover]
  have hiff : ∀ e, e ∈ ensure_cache_size c M ↔
      e ∈ (List.insertionSort entryLE c).drop (c.length - 8 * M / 10) := by
    intro e
    rw [hresult, List.mem_filter]
    simp only [decide_eq_true_eq]
    constructor
    · rintro ⟨hec, hnev⟩
      have hes : e ∈ List.insertionSort entryLE c := hperm.mem_iff.mpr hec
      rw [← List.take_append_drop (c.length - 8 * M / 10)
        (List.insertionSort entryLE c)] at hes
      rcases List.mem_append.mp hes with htake | hdrop
      · exact absurd (List.mem_map_of_mem Prod.fst htake) hnev
      · exact hdrop
    · intro hdrop
      have hes : e ∈ List.insertionSort entryLE c :=
        (List.drop_sublist _ _).subset hdrop
      refine ⟨hperm.mem_iff.mp hes, ?_⟩
      intro hev
      have hsplit : (List.insertionSort entryLE c).map Prod.fst =
          ((List.insertionSort entryLE c).take (c.length - 8 * M / 10)).map Prod.fst ++
            ((List.insertionSort entryLE c).drop (c.length - 8 * M / 10)).map Prod.fst := by
        rw [← List.map_append, List.take_append_drop]
      have hdisj := (List.nodup_append.mp (hsplit ▸ hsmap)).2.2
      exact hdisj hev (List.mem_map_of_mem Prod.fst hdrop)
  have hdnodup : ((List.insertionSort entryLE c).drop (c.length - 8 * M / 10)).Nodup :=
    (List.drop_sublist _ _).nodup hsnodup
  have hfn : (ensure_cache_size c M).Nodup := by
    rw [hresult]; exact hcnodup.filter _
  have hpermres : (ensure_cache_size c M).Perm
      ((List.insertionSort entryLE c).drop (c.length - 8 * M / 10)) :=
    (List.perm_ext_iff_of_nodup hfn hdnodup).mpr hiff
  refine ⟨?_, ?_, hiff⟩
  · rw [hpermres.length_eq, List.length_drop, hperm.length_eq]
    omega
  · intro e he r hr
    have hed := (hiff e).mp he
    have hp : List.Pairwise entryLE
        ((List.insertionSort entryLE c).take (c.length - 8 * M / 10) ++
          (List.insertionSort entryLE c).drop (c.length - 8 * M / 10)) := by
      rw [List.take_append_drop]; exact hsorted
    exact (List.pairwise_append.mp hp).2.2 r hr e hed

/-- C7: when a `set_session_cache` put pushes the cache strictly past
`cache_max_size`, the eviction keeps exactly `int(0.8 * maxSize)` entries —
removing the oldest `size - int(0.8 * maxSize)` (about 20% once size is
`maxSize + 1`) in ascending `updatedAt` order — every evicted entry is no
newer than any survivor, and the survivors are exactly the most recently
updated entries (the sorted suffix past the cut). -/
theorem c7_affinity_cache_eviction (cache : List (String × CacheEntry))
    (M : Nat) (conv_key account_id session_id : String) (now : ℤ)
    (hnodup : ((cacheUpsert cache conv_key ⟨account_id, session_id, now⟩).map
      Prod.fst).Nodup)
    (hover : M < (cacheUpsert cache conv_key ⟨account_id, session_id, now⟩).length) :
    (set_session_cache cache M conv_key account_id session_id now).length =
      8 * M / 10 ∧
    (∀ e ∈ set_session_cache cache M conv_key account_id session_id now,
      ∀ r ∈ (List.insertionSort entryLE
          (cacheUpsert cache conv_key ⟨account_id, session_id, now⟩)).take
        ((cacheUpsert cache conv_key ⟨account_id, session_id, now⟩).length -
          8 * M / 10),
        r.2.updated_at ≤ e.2.updated_at) ∧
    (∀ e, e ∈ set_session_cache cache M conv_key account_id session_id now ↔
      e ∈ (List.insertionSort entryLE
          (cacheUpsert cache conv_key ⟨account_id, session_id, now⟩)).drop
        ((cacheUpsert cache conv_key ⟨account_id, session_id, now⟩).length -
          8 * M / 10)) := by
  have h := ensure_cache_size_spec
    (cacheUpsert cache conv_key ⟨account_id, session_id, now⟩) M hnodup hover
  simpa only [set_session_cache] using h

/-- Five cache entries with distinct keys and distinct update times. -/
def cacheFive : List (String × CacheEntry) :=
  [("a", ⟨"acc1", "s1", 5⟩), ("b", ⟨"acc1", "s2", 1⟩), ("c", ⟨"acc2", "s3", 3⟩),
    ("d", ⟨"acc2", "s4", 2⟩), ("e", ⟨"acc3", "s5", 4⟩)]

/-- Witness for C7: putting a sixth distinct key into `cacheFive` with
`cache_max_size = 5` evicts down to `int(0.8 * 5) = 4` entries, and the
survivors are the sorted suffix. -/
theorem c7_affinity_cache_eviction_witness :
    (((cacheUpsert cacheFive "f" ⟨"acc3", "s6", 6⟩).map Prod.fst).Nodup ∧
      5 < (cacheUpsert cacheFive "f" ⟨"acc3", "s6", 6⟩).length) ∧
    (set_session_cache cacheFive 5 "f" "acc3" "s6" 6).length = 8 * 5 / 10 ∧
    (∀ e, e ∈ set_session_cache cacheFive 5 "f" "acc3" "s6" 6 ↔
      e ∈ (List.insertionSort entryLE
          (cacheUpsert cacheFive "f" ⟨"acc3", "s6", 6⟩)).drop
        ((cacheUpsert cacheFive "f" ⟨"acc3", "s6", 6⟩).length - 8 * 5 / 10)) :=
  ⟨⟨by decide, by decide⟩,
   (c7_affinity_cache_eviction cacheFive 5 "f" "acc3" "s6" 6 (by decide) (by decide)).1,
   (c7_affinity_cache_eviction cacheFive 5 "f" "acc3" "s6" 6 (by decide)
     (by decide)).2.2⟩

end NexusAPI
